import Mathlib

/-!
Shallow embedding of `src/app_definition.py` (the i3-app-list glyph
selection module) and proofs about it.

The Python module defines:
  * a window descriptor `app` with attributes `name` (window title),
    `class_` (window class) and `instance_` (window instance), each of
    which may be `None` — modelled as `Option String`;
  * a class `AppDefinition` whose `is_{app_name}` functions are boolean
    predicates over a window descriptor; the metaclass
    `StaticMethodPriorityMeta` defaults each function's `priority`
    attribute to 0, and the `priority` decorator overrides it
    (only `is_youtube` carries `@priority(5)`);
  * `get_glyph(app, glyphs)`, which collects the `is_` functions from
    `AppDefinition.__dict__` (declaration order), sorts them by priority
    descending (Python's `list.sort` is stable, and `reverse=True`
    preserves stability), and returns `glyphs.get(app_name)` for the
    first function whose derived app name (`__name__[3:]`) is a key of
    `glyphs` and whose call on `app` is truthy; `None` if none match.

Predicates may raise (`is_youtube` applies `re.search` to `app.name`
without a `None` guard), so a predicate evaluation is modelled as
`Except Unit Bool`: `.error ()` is a raised `TypeError`, `.ok b` a
normal (truthiness-valued) return.
-/

/-- Window descriptor: the attributes of `i3ipc` containers that the
predicates read.  `none` models a Python `None` attribute. -/
structure App where
  name : Option String
  class_ : Option String
  instance_ : Option String

/-- `listPre p l` holds iff `p` is a prefix of `l` (char-by-char test,
used to model Python `str.startswith` and anchored regex matching). -/
def listPre : List Char → List Char → Bool
  | [], _ => true
  | _ :: _, [] => false
  | a :: as, b :: bs => a == b && listPre as bs

/-- `listSub p l`: `p` occurs as a contiguous substring of `l`
(models Python `in` on strings and unanchored regex search for a
literal pattern). -/
def listSub (p : List Char) : List Char → Bool
  | [] => listPre p []
  | c :: cs => listPre p (c :: cs) || listSub p cs

/-- The anchored alternative `^(\(\d+\))?YouTube` of `youtube_re`:
either the string starts with `YouTube`, or it starts with `(`, one or
more digits, `)`, immediately followed by `YouTube`.  (`^` only matches
at the start of the string: `re.MULTILINE` is not set.) -/
def youtube_anchor (cs : List Char) : Bool :=
  listPre "YouTube".toList cs ||
    (match cs with
     | '(' :: rest =>
        !(rest.takeWhile Char.isDigit).isEmpty &&
          (match rest.dropWhile Char.isDigit with
           | ')' :: rest2 => listPre "YouTube".toList rest2
           | _ => false)
     | _ => false)

/-- Truthiness of `AppDefinition.youtube_re.search(s)` for
`youtube_re = re.compile(r"(^(\(\d+\))?YouTube)|(- YouTube)")`:
the anchored alternative matches at the start, or the literal
`"- YouTube"` occurs anywhere in the string. -/
def youtube_re_search (s : String) : Bool :=
  youtube_anchor s.toList || listSub "- YouTube".toList s.toList

/-- Models Python `app.class_ in (c1, ..., cn)`: `None` is not equal to
any string, otherwise tuple membership. -/
def classIn (app : App) (cs : List String) : Bool :=
  match app.class_ with
  | some c => cs.contains c
  | none => false

def is_download_manager (app : App) : Bool :=
  app.class_ == some "Uget-gtk"

def is_browser (app : App) : Bool :=
  classIn app ["Firefox", "Google-chrome", "qutebrowser"]

/-- `is_youtube` evaluates `is_browser(app) and youtube_re.search(app.name)`.
The `and` short-circuits, and `re.search(None)` raises `TypeError`,
modelled as `.error ()`.  (An empty title is falsy in Python only via
the search failing, so `some s` always searches.) -/
def is_youtube (app : App) : Except Unit Bool :=
  if is_browser app then
    match app.name with
    | none => .error ()
    | some s => .ok (youtube_re_search s)
  else
    .ok false

def is_tor (app : App) : Bool :=
  app.class_ == some "Tor Browser"

def is_pdf_reader (app : App) : Bool :=
  classIn app ["Okular", "Zathura", "Foxit Reader", "MuPDF"]

def is_virtual_machine (app : App) : Bool :=
  classIn app ["Vmplayer", "VirtualBox", "VirtualBox Manager", "VirtualBox Machine"]

/-- `app.class_ and app.class_.lower() in ("vlc", "mplayer")`:
the guard makes a `None` (or empty) class falsy before `.lower()`. -/
def is_media_player (app : App) : Bool :=
  match app.class_ with
  | some c => c != "" && (c.toLower == "vlc" || c.toLower == "mplayer")
  | none => false

def is_wireshark (app : App) : Bool :=
  app.class_ == some "Wireshark"

def is_terminal (app : App) : Bool :=
  classIn app ["Gnome-terminal", "URxvt", "XTerm", "st-256color"]

def is_file_browser (app : App) : Bool :=
  app.class_ == some "Nautilus"

def is_image_viewer (app : App) : Bool :=
  classIn app ["Pinta", "Pqiv", "feh", "Eog"]

def is_fontforge (app : App) : Bool :=
  app.class_ == some "fontforge"

/-- `app.class_ and app.class_.startswith("libreoffice")`. -/
def is_office (app : App) : Bool :=
  match app.class_ with
  | some c => c != "" && listPre "libreoffice".toList c.toList
  | none => false

def is_gvim (app : App) : Bool :=
  app.class_ == some "Gvim"

def is_editor (app : App) : Bool :=
  app.class_ == some "Gedit"

/-- `app.class_ == "jetbrains-studio" and app.instance_ == "sun-awt-X11-XFramePeer"
and app.name and "Android Studio" in app.name.split(" - ")[-1]`. -/
def is_android_studio (app : App) : Bool :=
  app.class_ == some "jetbrains-studio" &&
  app.instance_ == some "sun-awt-X11-XFramePeer" &&
  (match app.name with
   | some n => n != "" &&
       listSub "Android Studio".toList ((n.splitOn " - ").getLastD "").toList
   | none => false)

def is_skype (app : App) : Bool :=
  app.class_ == some "Skype"

def is_ida (app : App) : Bool :=
  app.class_ == some "IDA"

def is_steam (app : App) : Bool :=
  app.class_ == some "Steam"

/-- `app.name and app.name.startswith("Burp Suite")`. -/
def is_burp_suite (app : App) : Bool :=
  match app.name with
  | some n => n != "" && listPre "Burp Suite".toList n.toList
  | none => false

/-- `app.class_ and "Gephi" in app.class_`. -/
def is_gephi (app : App) : Bool :=
  match app.class_ with
  | some c => c != "" && listSub "Gephi".toList c.toList
  | none => false

def is_zeal (app : App) : Bool :=
  app.class_ == some "Zeal"

def is_gitk (app : App) : Bool :=
  app.class_ == some "Gitk"

def is_bless (app : App) : Bool :=
  app.class_ == some "Bless"

def is_discord (app : App) : Bool :=
  app.class_ == some "discord"

def is_todoist (app : App) : Bool :=
  app.class_ == some "todoist"

def is_inkscape (app : App) : Bool :=
  app.class_ == some "Inkscape"

/-- One entry of `AppDefinition.__dict__` that passes `is_app_definition`:
the function's `__name__`, its `priority` attribute (the metaclass
defaults it to 0; the `priority` decorator set 5 on `is_youtube`), and
the predicate itself, as a fallible evaluation. -/
structure Rule where
  fname : String
  priority : Int
  predicate : App → Except Unit Bool

/-- `get_app_name`: `app_def.__name__[3:]` (drop the `is_` prefix of a
definition's function name). -/
def get_app_name (s : String) : String :=
  s.drop 3

/-- Wrap a total (never-raising) predicate as a `Rule` predicate. -/
def okPred (f : App → Bool) : App → Except Unit Bool :=
  fun app => .ok (f app)

/-- The list comprehension
`[attr for attr in AppDefinition.__dict__.values() if is_app_definition(attr)]`:
the `is_`-named functions of the class body in declaration order
(`__dict__` preserves insertion order; `youtube_re`, the docstring and
dunder entries are not functions named `is_*`).  Priorities are 0
except `is_youtube`, decorated with `@priority(5)`. -/
def app_definitions : List Rule :=
  [⟨"is_download_manager", 0, okPred is_download_manager⟩,
   ⟨"is_browser", 0, okPred is_browser⟩,
   ⟨"is_youtube", 5, is_youtube⟩,
   ⟨"is_tor", 0, okPred is_tor⟩,
   ⟨"is_pdf_reader", 0, okPred is_pdf_reader⟩,
   ⟨"is_virtual_machine", 0, okPred is_virtual_machine⟩,
   ⟨"is_media_player", 0, okPred is_media_player⟩,
   ⟨"is_wireshark", 0, okPred is_wireshark⟩,
   ⟨"is_terminal", 0, okPred is_terminal⟩,
   ⟨"is_file_browser", 0, okPred is_file_browser⟩,
   ⟨"is_image_viewer", 0, okPred is_image_viewer⟩,
   ⟨"is_fontforge", 0, okPred is_fontforge⟩,
   ⟨"is_office", 0, okPred is_office⟩,
   ⟨"is_gvim", 0, okPred is_gvim⟩,
   ⟨"is_editor", 0, okPred is_editor⟩,
   ⟨"is_android_studio", 0, okPred is_android_studio⟩,
   ⟨"is_skype", 0, okPred is_skype⟩,
   ⟨"is_ida", 0, okPred is_ida⟩,
   ⟨"is_steam", 0, okPred is_steam⟩,
   ⟨"is_burp_suite", 0, okPred is_burp_suite⟩,
   ⟨"is_gephi", 0, okPred is_gephi⟩,
   ⟨"is_zeal", 0, okPred is_zeal⟩,
   ⟨"is_gitk", 0, okPred is_gitk⟩,
   ⟨"is_bless", 0, okPred is_bless⟩,
   ⟨"is_discord", 0, okPred is_discord⟩,
   ⟨"is_todoist", 0, okPred is_todoist⟩,
   ⟨"is_inkscape", 0, okPred is_inkscape⟩]

/-- Stable insertion into a descending-priority list: `r` goes in front
of the first element whose priority is `≤ r.priority`, so among equal
priorities an element inserted later from an earlier list position ends
up first. -/
def insertRule (r : Rule) : List Rule → List Rule
  | [] => [r]
  | y :: ys => if y.priority ≤ r.priority then r :: y :: ys else y :: insertRule r ys

/-- `app_definitions.sort(key=lambda f: f.priority, reverse=True)`:
Python's sort is stable and `reverse=True` keeps equal-key elements in
their original order, i.e. a stable sort by priority descending —
realised here as a stable insertion sort. -/
def sortRules : List Rule → List Rule
  | [] => []
  | r :: rs => insertRule r (sortRules rs)

/-- The loop body condition `app_name in glyphs`: the derived app name
of the rule is a key of the glyph dict (dict keys are unique, so an
association list with first-match lookup is a faithful model). -/
def taken (glyphs : List (String × String)) (r : Rule) : Bool :=
  (List.lookup (get_app_name r.fname) glyphs).isSome

/-- The `for app_def_func in app_definitions:` loop of `get_glyph`:
`if app_name in glyphs and app_def_func(app): return glyphs.get(app_name)`;
a raised predicate propagates out of the loop; falling off the end of
the function returns `None`. -/
def get_glyph_loop (app : App) (glyphs : List (String × String)) :
    List Rule → Except Unit (Option String)
  | [] => .ok none
  | r :: rs =>
    if taken glyphs r then
      match r.predicate app with
      | .error e => .error e
      | .ok true => .ok (List.lookup (get_app_name r.fname) glyphs)
      | .ok false => get_glyph_loop app glyphs rs
    else
      get_glyph_loop app glyphs rs

/-- `get_glyph(app, glyphs)`: build the definition list from the class
dict, sort it by priority descending, and run the first-match loop. -/
def get_glyph (app : App) (glyphs : List (String × String)) :
    Except Unit (Option String) :=
  get_glyph_loop app glyphs (sortRules app_definitions)

/-- Instrumented version of the loop: additionally records, in order,
the function names of the rules whose predicate was actually called
(the loop's `and` short-circuits, so a rule that fails the
`app_name in glyphs` test is never called). -/
def get_glyph_trace (app : App) (glyphs : List (String × String)) :
    List Rule → List String × Except Unit (Option String)
  | [] => ([], .ok none)
  | r :: rs =>
    if taken glyphs r then
      match r.predicate app with
      | .error e => ([r.fname], .error e)
      | .ok true => ([r.fname], .ok (List.lookup (get_app_name r.fname) glyphs))
      | .ok false =>
        let t := get_glyph_trace app glyphs rs
        (r.fname :: t.1, t.2)
    else
      get_glyph_trace app glyphs rs

/-- One Python dict assignment `d[k] = v`: if the key is present its
value is replaced in place (insertion position kept), otherwise the
pair is appended. -/
def dictInsert (k : String) (v : α) : List (String × α) → List (String × α)
  | [] => [(k, v)]
  | (k2, v2) :: rest =>
    if k2 == k then (k2, v) :: rest else (k2, v2) :: dictInsert k v rest

/-- Building the class attribute dictionary from the class body: each
`def is_foo(app): ...` statement is one dict assignment keyed by the
function name.  This is the registration mechanism the metaclass
`StaticMethodPriorityMeta` later iterates: it never inspects for
duplicates, because a duplicate has already collapsed to a single dict
entry before `__init__` runs. -/
def classBody (defs : List (String × α)) : List (String × α) :=
  defs.foldl (fun d kv => dictInsert kv.1 kv.2 d) []

/-- The module-level mutable environment a `get_glyph` call can see:
its two arguments and the class dict of `AppDefinition`. -/
structure CallState where
  app : App
  glyphs : List (String × String)
  registry : List Rule

/-- `get_glyph` as a state transformer over that environment: the body
builds a fresh local list from the registry (a read), sorts the local
list in place (mutating only the local), and runs the read-only loop;
no statement assigns to `app`, `glyphs` or the class dict, so the
environment component of the result is the input environment. -/
def get_glyph_state (s : CallState) : Except Unit (Option String) × CallState :=
  (get_glyph_loop s.app s.glyphs (sortRules s.registry), s)

instance {ε α : Type} [DecidableEq ε] [DecidableEq α] : DecidableEq (Except ε α) :=
  fun a b =>
  match a, b with
  | .ok x, .ok y =>
    if h : x = y then .isTrue (by rw [h]) else .isFalse (by simp [h])
  | .ok _, .error _ => .isFalse (by simp)
  | .error _, .ok _ => .isFalse (by simp)
  | .error x, .error y =>
    if h : x = y then .isTrue (by rw [h]) else .isFalse (by simp [h])

example : youtube_re_search "(1) YouTube - Mozilla Firefox" = false := by decide
example : youtube_re_search "YouTube - Mozilla Firefox" = true := by decide
example : youtube_re_search "(12)YouTube" = true := by decide
example : youtube_re_search "cat videos - YouTube - Mozilla Firefox" = true := by decide
example : get_glyph ⟨some "(1) YouTube - Mozilla Firefox", some "Firefox", none⟩
    [("browser", "B"), ("youtube", "Y")] = .ok (some "B") := by decide
example : get_glyph ⟨none, some "Firefox", none⟩
    [("youtube", "Y"), ("browser", "B")] = .error () := by decide
example : get_glyph ⟨none, some "Uget-gtk", none⟩
    [("download_manager", "D")] = .ok (some "D") := by decide
example : get_glyph ⟨none, some "Unknown-App", none⟩
    [("browser", "B")] = .ok none := by decide
example : (sortRules app_definitions).map (fun r => r.fname) =
    "is_youtube" :: (app_definitions.filter (fun r => r.fname != "is_youtube")).map
      (fun r => r.fname) := by decide

lemma mem_insertRule {a r : Rule} {l : List Rule} :
    a ∈ insertRule r l ↔ a = r ∨ a ∈ l := by
  induction l with
  | nil => simp [insertRule]
  | cons y ys ih =>
    by_cases h : y.priority ≤ r.priority
    · simp [insertRule, h]
    · simp [insertRule, h, ih]
      tauto

lemma pairwise_insertRule (r : Rule) {l : List Rule}
    (hl : l.Pairwise (fun a b => b.priority ≤ a.priority)) :
    (insertRule r l).Pairwise (fun a b => b.priority ≤ a.priority) := by
  induction l with
  | nil => simp [insertRule]
  | cons y ys ih =>
    rcases List.pairwise_cons.mp hl with ⟨hy, hys⟩
    by_cases h : y.priority ≤ r.priority
    · simp only [insertRule, if_pos h]
      refine List.pairwise_cons.mpr ⟨?_, hl⟩
      intro b hb
      rcases List.mem_cons.mp hb with rfl | hb
      · exact h
      · exact le_trans (hy b hb) h
    · simp only [insertRule, if_neg h]
      refine List.pairwise_cons.mpr ⟨?_, ih hys⟩
      intro b hb
      rcases mem_insertRule.mp hb with rfl | hb
      · exact (not_le.mp h).le
      · exact hy b hb

lemma sortRules_sorted_aux (l : List Rule) :
    (sortRules l).Pairwise (fun a b => b.priority ≤ a.priority) := by
  induction l with
  | nil => simp [sortRules]
  | cons r rs ih => exact pairwise_insertRule r ih

lemma filter_insertRule (r : Rule) (l : List Rule) (p : Int) :
    (insertRule r l).filter (fun x => x.priority == p) =
      if r.priority = p then r :: l.filter (fun x => x.priority == p)
      else l.filter (fun x => x.priority == p) := by
  induction l with
  | nil =>
    by_cases hr : r.priority = p <;> simp [insertRule, List.filter_cons, hr]
  | cons y ys ih =>
    by_cases h : y.priority ≤ r.priority
    · simp only [insertRule]
      rw [if_pos h]
      by_cases hr : r.priority = p <;>
        simp [List.filter_cons, hr]
    · simp only [insertRule, if_neg h]
      by_cases hy : y.priority = p
      · have hr : ¬ r.priority = p := by
          intro hr
          exact h (le_of_eq (hy.trans hr.symm))
        simp [List.filter_cons, hy, hr, ih]
      · by_cases hr : r.priority = p <;>
          simp [List.filter_cons, hy, hr, ih]

lemma sortRules_filter_aux (l : List Rule) (p : Int) :
    (sortRules l).filter (fun x => x.priority == p) =
      l.filter (fun x => x.priority == p) := by
  induction l with
  | nil => rfl
  | cons r rs ih =>
    rw [sortRules, filter_insertRule]
    by_cases hr : r.priority = p <;> simp [List.filter_cons, hr, ih]

lemma mem_sortRules {a : Rule} {l : List Rule} :
    a ∈ sortRules l ↔ a ∈ l := by
  induction l with
  | nil => simp [sortRules]
  | cons r rs ih => simp [sortRules, mem_insertRule, ih]

/-- When every glyph-mapped rule's predicate returns `False`, the loop
falls through: result `None`, and the trace is exactly the mapped rules
in sequence order (each was evaluated once). -/
lemma loop_all_false (app : App) (glyphs : List (String × String))
    (rs : List Rule)
    (h : ∀ r ∈ rs, taken glyphs r = true → r.predicate app = .ok false) :
    get_glyph_loop app glyphs rs = .ok none ∧
    (get_glyph_trace app glyphs rs).1 = (rs.filter (taken glyphs)).map Rule.fname := by
  induction rs with
  | nil => exact ⟨rfl, rfl⟩
  | cons r rs ih =>
    have hrest := ih (fun q hq => h q (List.mem_cons_of_mem _ hq))
    cases ht : taken glyphs r with
    | false =>
      simp [get_glyph_loop, get_glyph_trace, ht, List.filter_cons, hrest.1, hrest.2]
    | true =>
      have hp := h r (List.mem_cons_self r rs) ht
      simp [get_glyph_loop, get_glyph_trace, ht, hp, List.filter_cons, hrest.1, hrest.2]

/-- If no predicate in the sequence can raise on `app`, the loop cannot
raise either. -/
lemma loop_no_raise (app : App) (glyphs : List (String × String))
    (rs : List Rule)
    (h : ∀ r ∈ rs, ∃ b, r.predicate app = .ok b) :
    ∃ v, get_glyph_loop app glyphs rs = .ok v := by
  induction rs with
  | nil => exact ⟨none, rfl⟩
  | cons r rs ih =>
    obtain ⟨b, hb⟩ := h r (List.mem_cons_self r rs)
    have ih2 := ih (fun q hq => h q (List.mem_cons_of_mem _ hq))
    cases ht : taken glyphs r with
    | false => simpa [get_glyph_loop, ht] using ih2
    | true =>
      cases b with
      | false => simpa [get_glyph_loop, ht, hb] using ih2
      | true =>
        refine ⟨List.lookup (get_app_name r.fname) glyphs, ?_⟩
        simp [get_glyph_loop, ht, hb]

/-- Structure of one loop run over an arbitrary rule sequence: either
every glyph-mapped rule's predicate returned `False` (result `None`,
every mapped rule evaluated, in order), or the sequence splits around a
first rule that is glyph-mapped and whose predicate does not return
`False`; the loop's result comes from that rule alone, and the trace —
the predicates actually called — covers only the mapped rules up to and
including it, in sequence order.  Rules after it are never evaluated. -/
lemma loop_first_match (app : App) (glyphs : List (String × String)) :
    ∀ rs : List Rule,
    ((∀ r ∈ rs, taken glyphs r = true → r.predicate app = .ok false) ∧
       get_glyph_loop app glyphs rs = .ok none ∧
       (get_glyph_trace app glyphs rs).1 = (rs.filter (taken glyphs)).map Rule.fname)
    ∨ (∃ pre r post,
        rs = pre ++ r :: post ∧
        (∀ q ∈ pre, taken glyphs q = true → q.predicate app = .ok false) ∧
        taken glyphs r = true ∧ r.predicate app ≠ .ok false ∧
        (r.predicate app = .ok true →
          get_glyph_loop app glyphs rs =
            .ok (List.lookup (get_app_name r.fname) glyphs)) ∧
        (∀ e, r.predicate app = .error e →
          get_glyph_loop app glyphs rs = .error e) ∧
        (get_glyph_trace app glyphs rs).1 =
          (pre.filter (taken glyphs)).map Rule.fname ++ [r.fname]) := by
  intro rs
  induction rs with
  | nil => exact Or.inl ⟨by simp, rfl, rfl⟩
  | cons r rs ih =>
    cases ht : taken glyphs r with
    | false =>
      rcases ih with ⟨hall, hres, htr⟩ | ⟨pre, q, post, heq, hpre, htq, hnf, hok, herr, htr⟩
      · refine Or.inl ⟨?_, ?_, ?_⟩
        · intro x hx hxt
          rcases List.mem_cons.mp hx with rfl | hx
          · exact absurd hxt (by simp [ht])
          · exact hall x hx hxt
        · simpa [get_glyph_loop, ht] using hres
        · simpa [get_glyph_trace, ht, List.filter_cons] using htr
      · refine Or.inr ⟨r :: pre, q, post, by simp [heq], ?_, htq, hnf, ?_, ?_, ?_⟩
        · intro x hx hxt
          rcases List.mem_cons.mp hx with rfl | hx
          · exact absurd hxt (by simp [ht])
          · exact hpre x hx hxt
        · intro hq
          simpa [get_glyph_loop, ht] using hok hq
        · intro e he
          simpa [get_glyph_loop, ht] using herr e he
        · simpa [get_glyph_trace, ht, List.filter_cons] using htr
    | true =>
      cases hp : r.predicate app with
      | ok b =>
        cases b with
        | false =>
          rcases ih with ⟨hall, hres, htr⟩ | ⟨pre, q, post, heq, hpre, htq, hnf, hok, herr, htr⟩
          · refine Or.inl ⟨?_, ?_, ?_⟩
            · intro x hx hxt
              rcases List.mem_cons.mp hx with rfl | hx
              · exact hp
              · exact hall x hx hxt
            · simpa [get_glyph_loop, ht, hp] using hres
            · simp [get_glyph_trace, ht, hp, List.filter_cons, htr]
          · refine Or.inr ⟨r :: pre, q, post, by simp [heq], ?_, htq, hnf, ?_, ?_, ?_⟩
            · intro x hx hxt
              rcases List.mem_cons.mp hx with rfl | hx
              · exact hp
              · exact hpre x hx hxt
            · intro hq
              simpa [get_glyph_loop, ht, hp] using hok hq
            · intro e he
              simpa [get_glyph_loop, ht, hp] using herr e he
            · simp [get_glyph_trace, ht, hp, List.filter_cons, htr]
        | true =>
          refine Or.inr ⟨[], r, rs, rfl, by simp, ht, by simp [hp], ?_, ?_, ?_⟩
          · intro _
            simp [get_glyph_loop, ht, hp]
          · intro e he
            rw [hp] at he
            cases he
          · simp [get_glyph_trace, ht, hp]
      | error e =>
        refine Or.inr ⟨[], r, rs, rfl, by simp, ht, by simp [hp], ?_, ?_, ?_⟩
        · intro hq
          rw [hp] at hq
          cases hq
        · intro e2 he2
          rw [hp] at he2
          cases he2
          simp [get_glyph_loop, ht, hp]
        · simp [get_glyph_trace, ht, hp]

/-- C1: the spec expects `get_glyph` to return `"Y"` for the Firefox
window titled `"(1) YouTube - Mozilla Firefox"` with glyphs
`{browser: "B", youtube: "Y"}`.  On the code, `youtube_re` does not
match this title — the anchored alternative allows no space between the
`(1)` count prefix and `YouTube`, and the literal `"- YouTube"` does
not occur — so `is_youtube` returns `False` and the resolver falls
through to the `browser` rule, returning `"B"`.  This theorem evaluates
the code at that input. -/
theorem c1_count_prefix_title_gets_browser_glyph :
    youtube_re_search "(1) YouTube - Mozilla Firefox" = false ∧
    is_youtube ⟨some "(1) YouTube - Mozilla Firefox", some "Firefox", none⟩ =
      .ok false ∧
    get_glyph ⟨some "(1) YouTube - Mozilla Firefox", some "Firefox", none⟩
      [("browser", "B"), ("youtube", "Y")] = .ok (some "B") :=
  ⟨by decide, by decide, by decide⟩

/-- C2: the spec requires the youtube predicate to return `False` safely
on an absent title, the resolver then returning `"B"`.  On the code,
`is_youtube` applies `youtube_re.search` to `app.name` without the
`None` guard the other title-based rules have, so for a Firefox window
with `name = None` and a `youtube` glyph key the predicate raises
`TypeError` and `get_glyph` propagates it: the error branch is
reachable, not unreachable.  This theorem evaluates the code at that
input. -/
theorem c2_absent_title_browser_window_raises :
    is_youtube ⟨none, some "Firefox", none⟩ = .error () ∧
    get_glyph ⟨none, some "Firefox", none⟩ [("youtube", "Y"), ("browser", "B")] =
      .error () :=
  ⟨by decide, by decide⟩

/-- C3: `get_glyph` walks the priority-sorted sequence in order and
short-circuits.  Either every glyph-mapped rule's predicate returned
`False` (result `None`, every mapped rule evaluated in sequence order),
or the sequence splits around a first glyph-mapped rule whose predicate
did not return `False`: everything mapped before it evaluated to
`False`, every evaluated rule has priority at least that rule's (so no
predicate of lower priority than the matched rule is ever evaluated),
the result is that rule's mapped glyph (or its raised error), and the
trace shows nothing after it was evaluated. -/
theorem c3_first_match_short_circuit (app : App) (glyphs : List (String × String)) :
    ((∀ r ∈ sortRules app_definitions,
        taken glyphs r = true → r.predicate app = .ok false) ∧
       get_glyph app glyphs = .ok none ∧
       (get_glyph_trace app glyphs (sortRules app_definitions)).1 =
         ((sortRules app_definitions).filter (taken glyphs)).map Rule.fname)
    ∨ (∃ pre r post,
        sortRules app_definitions = pre ++ r :: post ∧
        (∀ q ∈ pre, taken glyphs q = true → q.predicate app = .ok false) ∧
        (∀ q ∈ pre, r.priority ≤ q.priority) ∧
        taken glyphs r = true ∧ r.predicate app ≠ .ok false ∧
        (r.predicate app = .ok true →
          get_glyph app glyphs = .ok (List.lookup (get_app_name r.fname) glyphs)) ∧
        (∀ e, r.predicate app = .error e → get_glyph app glyphs = .error e) ∧
        (get_glyph_trace app glyphs (sortRules app_definitions)).1 =
          (pre.filter (taken glyphs)).map Rule.fname ++ [r.fname]) := by
  rcases loop_first_match app glyphs (sortRules app_definitions) with
    h | ⟨pre, r, post, heq, hpre, htk, hnf, hok, herr, htr⟩
  · exact Or.inl h
  · refine Or.inr ⟨pre, r, post, heq, hpre, ?_, htk, hnf, hok, herr, htr⟩
    have hs := sortRules_sorted_aux app_definitions
    rw [heq] at hs
    have h2 := (List.pairwise_append.mp hs).2.2
    intro q hq
    exact h2 q hq r (List.mem_cons_self r post)

/-- C4: for every rule list, the sequence the resolver iterates is
sorted by non-increasing priority, and the sort is stable: for each
priority value, the rules carrying it appear in exactly their
registration (declaration) order. -/
theorem c4_sorted_descending_and_stable (rs : List Rule) :
    (sortRules rs).Pairwise (fun a b => b.priority ≤ a.priority) ∧
    ∀ p : Int, (sortRules rs).filter (fun r => r.priority == p) =
      rs.filter (fun r => r.priority == p) :=
  ⟨sortRules_sorted_aux rs, fun p => sortRules_filter_aux rs p⟩

/-- C5: a rule whose derived app name is not a key of the glyph mapping
is skipped; when no registered rule's app name is a glyph key,
`get_glyph` returns `None` and no predicate is evaluated at all (empty
trace), even though a predicate might have returned `True`. -/
theorem c5_unmapped_rules_skipped (app : App) (glyphs : List (String × String))
    (h : ∀ r ∈ app_definitions, List.lookup (get_app_name r.fname) glyphs = none) :
    get_glyph app glyphs = .ok none ∧
    (get_glyph_trace app glyphs (sortRules app_definitions)).1 = [] := by
  have hall : ∀ r ∈ sortRules app_definitions, taken glyphs r = false := by
    intro r hr
    simp [taken, h r (mem_sortRules.mp hr)]
  have h2 := loop_all_false app glyphs (sortRules app_definitions)
    (fun r hr ht => absurd ht (by simp [hall r hr]))
  refine ⟨h2.1, ?_⟩
  rw [h2.2, List.filter_eq_nil_iff.mpr (by simpa using hall)]
  rfl

/-- Witness for C5: a `Uget-gtk` window whose `is_download_manager`
predicate would return `True`, with a glyph mapping naming no rule,
still resolves to `None` with an empty trace. -/
theorem c5_witness :
    (get_glyph ⟨none, some "Uget-gtk", none⟩ [("doesnotexist", "X")] = .ok none ∧
     (get_glyph_trace ⟨none, some "Uget-gtk", none⟩ [("doesnotexist", "X")]
        (sortRules app_definitions)).1 = []) ∧
    is_download_manager ⟨none, some "Uget-gtk", none⟩ = true :=
  ⟨c5_unmapped_rules_skipped _ _ (by decide), by decide⟩

/-- C6 counterexample: the claim says that whenever no rule satisfies
both conditions (glyph key present and predicate `True`), `get_glyph`
returns `None` and never an error.  For the Firefox window with absent
title and glyphs `{youtube: "Y"}`, no rule satisfies both conditions —
yet `get_glyph` raises (the `is_youtube` evaluation raises `TypeError`),
so the result is an error, not `None`. -/
theorem c6_counterexample_raise_despite_no_match :
    (∀ r ∈ sortRules app_definitions,
        ¬(taken [("youtube", "Y")] r = true ∧
          r.predicate ⟨none, some "Firefox", none⟩ = .ok true)) ∧
    get_glyph ⟨none, some "Firefox", none⟩ [("youtube", "Y")] = .error () ∧
    get_glyph ⟨none, some "Firefox", none⟩ [("youtube", "Y")] ≠ .ok none :=
  ⟨by decide, by decide, by decide⟩

/-- C6 as amended: when no rule satisfies both conditions and no
evaluated predicate raises — i.e. every glyph-mapped rule's predicate
returns `False` — `get_glyph` returns `None`, a normal outcome and not
an error. -/
theorem c6_no_match_returns_none (app : App) (glyphs : List (String × String))
    (h : ∀ r ∈ app_definitions, taken glyphs r = true → r.predicate app = .ok false) :
    get_glyph app glyphs = .ok none :=
  (loop_all_false app glyphs (sortRules app_definitions)
    (fun r hr => h r (mem_sortRules.mp hr))).1

/-- Witness for the amended C6: an unknown window class with a mapped
`browser` glyph resolves to `None` without error. -/
theorem c6_witness :
    get_glyph ⟨some "hello", some "Unknown-App", none⟩ [("browser", "B")] = .ok none :=
  c6_no_match_returns_none _ _ (by decide)

/-- C7 counterexample: the claim says registering two rules with the
same name always fails with `DuplicateAppNameError`.  The code has no
such error: a class body is a sequence of dict assignments, so a second
`def is_foo` silently replaces the first in place before the metaclass
ever runs — registration succeeds and yields a single rule, the later
one. -/
theorem c7_counterexample_duplicate_shadows :
    classBody [("is_foo", okPred is_tor), ("is_foo", okPred is_steam)] =
      [("is_foo", okPred is_steam)] := by
  simp [classBody, dictInsert]

/-- C7 as amended: registering two definitions under the same name does
not fail; the attribute dictionary keeps a single entry whose value is
the later definition (the later rule silently shadows the earlier). -/
theorem c7_duplicate_def_last_wins (k : String) (v1 v2 : App → Except Unit Bool) :
    classBody [(k, v1), (k, v2)] = [(k, v2)] := by
  simp [classBody, dictInsert]

/-- C8: `get_glyph` is deterministic and side-effect free.  As a state
transformer over the environment it can reach (its two arguments and
the registry), a call leaves the environment unchanged, a second call
on the resulting environment returns the same result, and the state
version agrees with the plain function on the module's registry. -/
theorem c8_pure_and_idempotent (s : CallState) (app : App)
    (glyphs : List (String × String)) :
    (get_glyph_state s).2 = s ∧
    (get_glyph_state ((get_glyph_state s).2)).1 = (get_glyph_state s).1 ∧
    (get_glyph_state ⟨app, glyphs, app_definitions⟩).1 = get_glyph app glyphs :=
  ⟨rfl, rfl, rfl⟩

/-- C9: when the window class is absent, every registered predicate
evaluates without raising: the class-based rules compare or guard the
`None`, the name-based rules (`is_burp_suite`, `is_android_studio`)
guard the title, and `is_youtube`'s regex search is short-circuited
because `is_browser` is `False`.  Consequently `get_glyph` never raises
for such a window, whatever the glyph mapping. -/
theorem c9_absent_class_never_raises (app : App) (h : app.class_ = none) :
    (∀ r ∈ app_definitions, ∃ b, r.predicate app = .ok b) ∧
    ∀ glyphs : List (String × String), ∃ v, get_glyph app glyphs = .ok v := by
  have hb : is_browser app = false := by simp [is_browser, classIn, h]
  have hall : ∀ r ∈ app_definitions, ∃ b, r.predicate app = .ok b := by
    intro r hr
    simp only [app_definitions, List.mem_cons, List.not_mem_nil, or_false] at hr
    rcases hr with rfl | rfl | rfl | rfl | rfl | rfl | rfl | rfl | rfl | rfl |
      rfl | rfl | rfl | rfl | rfl | rfl | rfl | rfl | rfl | rfl | rfl | rfl |
      rfl | rfl | rfl | rfl | rfl
    all_goals first
      | exact ⟨_, rfl⟩
      | exact ⟨false, by simp [is_youtube, hb]⟩
  exact ⟨hall, fun glyphs =>
    loop_no_raise app glyphs _ (fun r hr => hall r (mem_sortRules.mp hr))⟩

/-- Witness for C9: a window with absent class, a `Burp Suite` title
and an instance string; every predicate returns normally and
`get_glyph` never raises. -/
theorem c9_witness :
    (∀ r ∈ app_definitions, ∃ b,
        r.predicate ⟨some "Burp Suite - intercept", none, some "i"⟩ = .ok b) ∧
    ∀ glyphs : List (String × String), ∃ v,
        get_glyph ⟨some "Burp Suite - intercept", none, some "i"⟩ glyphs = .ok v :=
  c9_absent_class_never_raises _ rfl

/-- C10: exactly one registered definition carries a non-default
priority — `is_youtube`, with 5 — every other definition has priority
0, and therefore the sorted sequence the resolver iterates is
`is_youtube` first, followed by the remaining definitions in exactly
their class-body declaration order. -/
theorem c10_unique_nonzero_priority_and_order :
    app_definitions.map (fun r => (r.fname, r.priority)) =
      [("is_download_manager", 0), ("is_browser", 0), ("is_youtube", 5),
       ("is_tor", 0), ("is_pdf_reader", 0), ("is_virtual_machine", 0),
       ("is_media_player", 0), ("is_wireshark", 0), ("is_terminal", 0),
       ("is_file_browser", 0), ("is_image_viewer", 0), ("is_fontforge", 0),
       ("is_office", 0), ("is_gvim", 0), ("is_editor", 0),
       ("is_android_studio", 0), ("is_skype", 0), ("is_ida", 0),
       ("is_steam", 0), ("is_burp_suite", 0), ("is_gephi", 0),
       ("is_zeal", 0), ("is_gitk", 0), ("is_bless", 0), ("is_discord", 0),
       ("is_todoist", 0), ("is_inkscape", 0)] ∧
    (app_definitions.filter (fun r => r.priority != 0)).map (fun r => r.fname) =
      ["is_youtube"] ∧
    (sortRules app_definitions).map (fun r => r.fname) =
      ["is_youtube", "is_download_manager", "is_browser", "is_tor",
       "is_pdf_reader", "is_virtual_machine", "is_media_player",
       "is_wireshark", "is_terminal", "is_file_browser", "is_image_viewer",
       "is_fontforge", "is_office", "is_gvim", "is_editor",
       "is_android_studio", "is_skype", "is_ida", "is_steam",
       "is_burp_suite", "is_gephi", "is_zeal", "is_gitk", "is_bless",
       "is_discord", "is_todoist", "is_inkscape"] :=
  ⟨by decide, by decide, by decide⟩
